import Mathlib

/-! ## Definitions: the shallow embedding of `src/app.py` -/

/-- The whitespace characters removed by Python `str.strip()` (ASCII model:
space, tab, newline, carriage return, vertical tab, form feed). -/
def isSpaceChar (c : Char) : Bool :=
  c == ' ' || c == '\t' || c == '\n' || c == '\r' || c == '\x0b' || c == '\x0c'

/-- Remove leading whitespace. -/
def stripLeft (l : List Char) : List Char := l.dropWhile isSpaceChar

/-- Remove trailing whitespace. -/
def stripRight (l : List Char) : List Char := (l.reverse.dropWhile isSpaceChar).reverse

/-- Python `str.strip()` on a character list. -/
def pyStrip (l : List Char) : List Char := stripRight (stripLeft l)

/-- Python `s.strip()`. -/
def pyStripS (s : String) : String := String.mk (pyStrip s.data)

/-- The case-folding table of Python `str.lower()` (ASCII model). -/
def upperToLower : List (Char × Char) :=
  [('A', 'a'), ('B', 'b'), ('C', 'c'), ('D', 'd'), ('E', 'e'), ('F', 'f'),
   ('G', 'g'), ('H', 'h'), ('I', 'i'), ('J', 'j'), ('K', 'k'), ('L', 'l'),
   ('M', 'm'), ('N', 'n'), ('O', 'o'), ('P', 'p'), ('Q', 'q'), ('R', 'r'),
   ('S', 's'), ('T', 't'), ('U', 'u'), ('V', 'v'), ('W', 'w'), ('X', 'x'),
   ('Y', 'y'), ('Z', 'z')]

/-- Python `str.lower()` on one character (ASCII model). -/
def pyCharLower (c : Char) : Char := (upperToLower.lookup c).getD c

/-- Python `s.lower()`. -/
def pyLowerS (s : String) : String := String.mk (s.data.map pyCharLower)

/-- Python `s.replace(a, b)` for single-character `a`, `b`. -/
def pyReplaceS (s : String) (a b : Char) : String :=
  String.mk (s.data.map (fun c => if c = a then b else c))

/-- `normalize_key` from `src/app.py`:
`raw.strip().lower().replace("-", "_").replace(" ", "_")`. -/
def normalize_key (raw : String) : String :=
  pyReplaceS (pyReplaceS (pyLowerS (pyStripS raw)) '-' '_') ' ' '_'

/-- The character-level action of `normalize_key` after stripping. -/
def normChar (c : Char) : Char :=
  let d := pyCharLower c
  let e := if d = '-' then '_' else d
  if e = ' ' then '_' else e

def lowercaseLetters : List Char :=
  ['a', 'b', 'c', 'd', 'e', 'f', 'g', 'h', 'i', 'j', 'k', 'l', 'm',
   'n', 'o', 'p', 'q', 'r', 's', 't', 'u', 'v', 'w', 'x', 'y', 'z']

/-- A list whose first and last characters (when they exist) are not
whitespace. -/
def NoWsEnds (l : List Char) : Prop :=
  (∀ c, l.head? = some c → isSpaceChar c = false) ∧
  (∀ c, l.getLast? = some c → isSpaceChar c = false)

/-- JSON values (numbers restricted to integers, which covers the data the
service handles). -/
inductive Json where
  | null
  | bool (b : Bool)
  | num (n : Int)
  | str (s : String)
  | arr (elems : List Json)
  | obj (fields : List (String × Json))

/-- Python `repr()` of a parsed JSON value (ASCII model; string escaping is
not modelled). -/
def pyRepr : Json → String
  | .null => "None"
  | .bool true => "True"
  | .bool false => "False"
  | .num n => toString n
  | .str s => "'" ++ s ++ "'"
  | .arr xs => "[" ++ String.intercalate ", " (xs.attach.map fun ⟨x, _⟩ => pyRepr x) ++ "]"
  | .obj fs =>
      "\x7b" ++
        String.intercalate ", " (fs.attach.map fun ⟨⟨k, v⟩, _⟩ => "'" ++ k ++ "': " ++ pyRepr v) ++
      "\x7d"
decreasing_by
  · have h := List.sizeOf_lt_of_mem ‹x ∈ xs›
    simp at *
    omega
  · have h := List.sizeOf_lt_of_mem ‹(k, v) ∈ fs›
    simp at *
    omega

/-- Python `str()` of a parsed JSON value. -/
def pyStr : Json → String
  | .str s => s
  | v => pyRepr v

/-- Python truthiness of a parsed JSON value. -/
def jsonTruthy : Json → Bool
  | .null => false
  | .bool b => b
  | .num n => n != 0
  | .str s => s != ""
  | .arr xs => !xs.isEmpty
  | .obj fs => !fs.isEmpty

/-- Is the value a JSON object (Python dict)? -/
def isJsonObj : Json → Bool
  | .obj _ => true
  | _ => false

/-- Is the value a JSON array (Python list)? -/
def isJsonArr : Json → Bool
  | .arr _ => true
  | _ => false

/-- Python `d[k]` read / `d.get(k)`: the value stored under `k`, if any.
Dicts are modelled as association lists with unique keys. -/
def dictGet {α : Type} : List (String × α) → String → Option α
  | [], _ => none
  | (k', v) :: rest, k => if k' = k then some v else dictGet rest k

/-- Python `d[k] = v`: replace the existing entry in place (a Python dict
keeps the key's original insertion position), or append a new entry. -/
def dictInsert {α : Type} : List (String × α) → String → α → List (String × α)
  | [], k, v => [(k, v)]
  | (k', v') :: rest, k, v =>
      if k' = k then (k, v) :: rest else (k', v') :: dictInsert rest k v

/-- Python `d.keys()` in insertion order. -/
def dictKeys {α : Type} (d : List (String × α)) : List String := d.map Prod.fst

/-- Python `{**a, **b}`. -/
def dictMerge (a b : List (String × Json)) : List (String × Json) :=
  b.foldl (fun d kv => dictInsert d kv.1 kv.2) a

/-- Python `k in d`. -/
def hasKey (d : List (String × Json)) (k : String) : Bool :=
  (dictGet d k).isSome

def charListLe : List Char → List Char → Bool
  | [], _ => true
  | _ :: _, [] => false
  | x :: xs, y :: ys => if x = y then charListLe xs ys else decide (x < y)

def strLeb (a b : String) : Bool := charListLe a.data b.data

def insertSorted (x : String) : List String → List String
  | [] => [x]
  | y :: ys => if strLeb x y then x :: y :: ys else y :: insertSorted x ys

/-- Python `sorted(keys)` (insertion sort; the keys of a dict are distinct,
so any stable comparison sort returns the same list). -/
def sortStrings (l : List String) : List String := l.foldr insertSorted []

/-- The errors `load_sections` can raise: `FileNotFoundError` and
`ValueError`, with the messages from the source. -/
inductive LoadError where
  | notFound (msg : String)
  | badFormat (msg : String)

/-- `load_sections` from `src/app.py`.  Reading and parsing the file is
modelled by the `contents` argument: `none` when `os.path.exists(path)` is
false, `some v` when the file parses to the JSON value `v`. -/
def load_sections (path : String) (contents : Option Json) : Except LoadError (List Json) :=
  match contents with
  | none => Except.error (LoadError.notFound ("DATA_PATH not found: " ++ path))
  | some data =>
      match data with
      | Json.arr xs => Except.ok xs
      | _ => Except.error (LoadError.badFormat "Top-level JSON must be a list of section objects.")

/-- A raw section record (a JSON object).  `section` holds the string value
of the record's `"section"` field (`""` when the field is absent, matching
`str(entry.get("section", ""))` for a string-valued field); `period` and
`metrics` are `none` when the corresponding field is absent. -/
structure RawRecord where
  «section» : String
  period : Option Json
  metrics : Option (List (String × Json))

/-- `index_by_section` from `src/app.py`: key each record by
`name.lower()` where `name = str(entry.get("section", "")).strip()`,
skipping records whose stripped name is empty; later records overwrite
earlier ones under the same key. -/
def index_by_section (sections : List RawRecord) : List (String × RawRecord) :=
  sections.foldl
    (fun out entry =>
      let name := pyStripS entry.«section»
      if name = "" then out else dictInsert out (pyLowerS name) entry)
    []

/-- `SECTION_KEYS = sorted(SECTIONS_BY_NAME.keys())` for a given index. -/
def sectionKeysOf (sectionsByName : List (String × RawRecord)) : List String :=
  sortStrings (dictKeys sectionsByName)

/-- `format_payload` from `src/app.py`, parameterised by the module-level
`SECTIONS_BY_NAME` index and `SECTION_KEYS` list built at startup.  The
source's `if not section:` test is the `none` case of the lookup: every
record stored by `index_by_section` is a non-empty dict, hence truthy. -/
def format_payload (sectionsByName : List (String × RawRecord))
    (sectionKeys : List String) (section_name : String) : List (String × Json) :=
  let section_key := normalize_key section_name
  match dictGet sectionsByName section_key with
  | none =>
      [("ok", Json.bool false),
       ("error", Json.str ("Section '" ++ section_name ++ "' not found.")),
       ("available_sections", Json.arr (sectionKeys.map Json.str))]
  | some sec =>
      [("ok", Json.bool true),
       ("section", Json.str sec.«section»),
       ("period", sec.period.getD Json.null),
       ("metrics", Json.obj (sec.metrics.getD []))]

/-- Truthiness of `payload.get("ok")`, as tested by the request handlers. -/
def payloadOk (p : List (String × Json)) : Bool :=
  jsonTruthy ((dictGet p "ok").getD Json.null)

/-- The outcome of one call to the external completion provider: either an
exception raised anywhere inside the `try` block, or a first-choice message
content (`none` models a `None` content, read back as `""`). -/
inductive ProviderResponse where
  | raises
  | returns (content : Option String)

/-- The optional OpenAI client, abstracted as a function from the system and
user message contents to the provider's response. -/
def LLMClient : Type := String → String → ProviderResponse

/-- The `brief_help` table from `choose_section_with_llm`. -/
def brief_help : List (String × String) :=
  [("overview_core", "Overall KPIs across the program"),
   ("human_engagement_trends", "Human feedback, escalations, reviews"),
   ("agent_learning_progress", "Learning, models improving, training velocity"),
   ("operations_impact", "Ops metrics and efficiency"),
   ("roi_quarter", "Return on investment (quarterly)"),
   ("roi_annual", "Return on investment (annual)"),
   ("sales_impact", "Sales impact, revenue, pipeline, conversions")]

/-- `choose_section_with_llm` from `src/app.py`. -/
def choose_section_with_llm (client : Option LLMClient) (query : String)
    (candidate_keys : List String) : Option String :=
  match client with
  | none => none
  | some call =>
      let candidates_text :=
        String.intercalate "\n"
          (candidate_keys.map (fun k => "- " ++ k ++ ": " ++ ((dictGet brief_help k).getD "No desc")))
      let sys :=
        "You select exactly one canonical section key from a fixed list. " ++
        "Return ONLY the key, nothing else. If unsure, pick the closest."
      let user :=
        "User question/label: " ++ query ++
        "\n\nChoose one of these keys that best matches the user's intent:\n" ++
        candidates_text ++ "\n\nReturn ONLY the key."
      match call sys user with
      | ProviderResponse.raises => none
      | ProviderResponse.returns content =>
          let text := pyLowerS (pyStripS (content.getD ""))
          let text_norm := normalize_key text
          if text_norm ∈ candidate_keys then some text_norm else none

/-- The environment-style configuration the handlers read. -/
structure Config where
  DEFAULT_SECTION : String
  DEFAULT_GREETING : String

/-- Truthiness of an optional string (`request.args.get(...)`, or the
resolver's `Optional[str]` result): falsy when absent or empty. -/
def truthyOptStr : Option String → Bool
  | none => false
  | some s => s != ""

/-- An uncaught Python exception escaping a handler. -/
inductive PyError where
  | attributeError

/-- The `/metrics` GET handler `get_metrics_query` from `src/app.py`,
parameterised by the startup index, key list and client.  `sectionArg` and
`qArg` are `request.args.get("section")` and `request.args.get("q")`.  The
result is the HTTP status code and the JSON response body. -/
def get_metrics_query (sectionsByName : List (String × RawRecord))
    (sectionKeys : List String) (client : Option LLMClient)
    (sectionArg qArg : Option String) : Nat × Json :=
  if truthyOptStr sectionArg then
    let payload := format_payload sectionsByName sectionKeys (sectionArg.getD "")
    if payloadOk payload then (200, Json.obj payload) else (404, Json.obj payload)
  else if truthyOptStr qArg then
    let chosen := choose_section_with_llm client (qArg.getD "") sectionKeys
    if truthyOptStr chosen then
      (200, Json.obj (format_payload sectionsByName sectionKeys (chosen.getD "")))
    else
      (400, Json.obj
        [("ok", Json.bool false),
         ("error", Json.str "Could not infer a section from your query."),
         ("available_sections", Json.arr (sectionKeys.map Json.str)),
         ("hint", Json.str "Try specifying ?section=<one of the keys>.")])
  else
    (400, Json.obj
      [("ok", Json.bool false),
       ("error", Json.str "Provide either ?section=<key> or ?q=<free-text>"),
       ("available_sections", Json.arr (sectionKeys.map Json.str))])

/-- The `/ask` POST handler `ask_llm_router` from `src/app.py`.  `body` is
`request.get_json(silent=True)`: `none` when the request body is absent or
unparseable.  `data.get("q", ...)` on a non-dict raises `AttributeError`,
modelled by the `Except.error` result. -/
def ask_llm_router (cfg : Config) (sectionsByName : List (String × RawRecord))
    (sectionKeys : List String) (client : Option LLMClient)
    (body : Option Json) : Except PyError (Nat × Json) :=
  let data : Json :=
    match body with
    | none => Json.obj []
    | some v => if jsonTruthy v then v else Json.obj []
  match data with
  | Json.obj fields =>
      let q := pyStripS (pyStr ((dictGet fields "q").getD (Json.str "")))
      if q = "" then
        Except.ok (400, Json.obj
          [("ok", Json.bool false),
           ("error", Json.str "Missing 'q' in JSON body.")])
      else
        let chosen := choose_section_with_llm client q sectionKeys
        if truthyOptStr chosen then
          let payload := format_payload sectionsByName sectionKeys (chosen.getD "")
          let msg : Option String :=
            if chosen.getD "" = "overview_core" then some cfg.DEFAULT_GREETING else none
          let msgFields : List (String × Json) :=
            match msg with
            | some m => if m = "" then [] else [("message", Json.str m)]
            | none => []
          Except.ok (200, Json.obj (dictMerge msgFields payload))
        else
          Except.ok (400, Json.obj
            [("ok", Json.bool false),
             ("error", Json.str "Could not infer a section from your query."),
             ("available_sections", Json.arr (sectionKeys.map Json.str))])
  | _ => Except.error PyError.attributeError

/-- The spec's scenario record `{section:"Overview Core", period:"Q1", metrics:{"x":1}}`. -/
def sampleRecord : RawRecord :=
  RawRecord.mk "Overview Core" (some (Json.str "Q1")) (some [("x", Json.num 1)])

/-- The startup index built from the scenario data source. -/
def sampleIndex : List (String × RawRecord) := index_by_section [sampleRecord]

/-- `SECTION_KEYS` for the scenario data source. -/
def sampleKeys : List String := sectionKeysOf sampleIndex

/-- A data source whose only section is named `"roi_quarter"`. -/
def roiRecord : RawRecord := RawRecord.mk "roi_quarter" none none

def roiIndex : List (String × RawRecord) := index_by_section [roiRecord]

def roiKeys : List String := sectionKeysOf roiIndex

/-- A provider that always answers `"roi_quarter"`. -/
def roiClient : Option LLMClient :=
  some (fun _ _ => ProviderResponse.returns (some "roi_quarter"))

/-- A deployment configured with `DEFAULT_SECTION = "roi_quarter"`. -/
def roiConfig : Config := Config.mk "roi_quarter" "Welcome back."

/-- A data source whose only section is named `"overview_core"`. -/
def ovRecord : RawRecord := RawRecord.mk "overview_core" none none

def ovIndex : List (String × RawRecord) := index_by_section [ovRecord]

def ovKeys : List String := sectionKeysOf ovIndex

/-- A provider that always answers `"overview_core"`. -/
def ovClient : Option LLMClient :=
  some (fun _ _ => ProviderResponse.returns (some "overview_core"))

def ovConfig : Config := Config.mk "overview_core" "Welcome back."

/-! ## Theorems -/

theorem normalize_key_data (s : String) :
    (normalize_key s).data = (pyStrip s.data).map normChar := by
  simp only [normalize_key, pyReplaceS, pyLowerS, pyStripS, List.map_map]
  rfl

theorem lookup_mem_snd (l : List (Char × Char)) (k v : Char)
    (h : l.lookup k = some v) : v ∈ l.map Prod.snd := by
  induction l with
  | nil => simp [List.lookup] at h
  | cons a t ih =>
    simp only [List.lookup] at h
    split at h
    · simp only [Option.some.injEq] at h
      subst h
      simp
    · simpa using Or.inr (ih h)

theorem pyCharLower_cases (c : Char) :
    pyCharLower c = c ∨ pyCharLower c ∈ lowercaseLetters := by
  unfold pyCharLower
  cases h : upperToLower.lookup c with
  | none => exact Or.inl rfl
  | some d =>
    right
    have hm := lookup_mem_snd upperToLower c d h
    have h2 : upperToLower.map Prod.snd = lowercaseLetters := by decide
    rw [h2] at hm
    simpa using hm

theorem pyCharLower_idem (c : Char) : pyCharLower (pyCharLower c) = pyCharLower c := by
  rcases pyCharLower_cases c with h | h
  · rw [h]
    exact h
  · exact (show ∀ d ∈ lowercaseLetters, pyCharLower d = d by decide) _ h

theorem normChar_cases (c : Char) :
    normChar c = '_' ∨
      (normChar c = pyCharLower c ∧ pyCharLower c ≠ '-' ∧ pyCharLower c ≠ ' ') := by
  simp only [normChar]
  split_ifs with h1 h2 h3 <;> simp_all

theorem normChar_idem (c : Char) : normChar (normChar c) = normChar c := by
  rcases normChar_cases c with h | ⟨h, hd, hs⟩
  · rw [h]; decide
  · rw [h]
    simp [normChar, pyCharLower_idem c, hd, hs]

theorem normChar_not_ws (c : Char) (h : isSpaceChar c = false) :
    isSpaceChar (normChar c) = false := by
  rcases normChar_cases c with h1 | ⟨h1, _, _⟩
  · rw [h1]; decide
  · rw [h1]
    rcases pyCharLower_cases c with h2 | h2
    · rw [h2]; exact h
    · exact (show ∀ d ∈ lowercaseLetters, isSpaceChar d = false by decide) _ h2

theorem head?_dropWhile_not (p : Char → Bool) (l : List Char) :
    ∀ c, (l.dropWhile p).head? = some c → p c = false := by
  induction l with
  | nil => simp
  | cons x xs ih =>
    intro c hc
    rw [List.dropWhile_cons] at hc
    split at hc
    · exact ih c hc
    · simp only [List.head?_cons, Option.some.injEq] at hc
      subst hc
      simp_all

theorem getLast?_dropWhile (p : Char → Bool) (l : List Char)
    (h : l.dropWhile p ≠ []) : (l.dropWhile p).getLast? = l.getLast? := by
  obtain ⟨t, ht⟩ := List.dropWhile_suffix (l := l) p
  conv_rhs => rw [← ht]
  rw [List.getLast?_append_of_ne_nil _ h]

theorem noWsEnds_pyStrip (l : List Char) : NoWsEnds (pyStrip l) := by
  constructor
  · intro c hc
    have hne : (stripLeft l).reverse.dropWhile isSpaceChar ≠ [] := by
      intro hnil
      simp only [pyStrip, stripRight, hnil, List.reverse_nil] at hc
      simp at hc
    have h1 : (pyStrip l).head? = ((stripLeft l).reverse.dropWhile isSpaceChar).getLast? := by
      simp [pyStrip, stripRight, List.head?_reverse]
    rw [h1, getLast?_dropWhile _ _ hne, List.getLast?_reverse] at hc
    exact head?_dropWhile_not isSpaceChar l c hc
  · intro c hc
    have h1 : (pyStrip l).getLast? = ((stripLeft l).reverse.dropWhile isSpaceChar).head? := by
      simp [pyStrip, stripRight, List.getLast?_reverse]
    rw [h1] at hc
    exact head?_dropWhile_not isSpaceChar (stripLeft l).reverse c hc

theorem dropWhile_eq_self_of_head (p : Char → Bool) (l : List Char)
    (h : ∀ c, l.head? = some c → p c = false) : l.dropWhile p = l := by
  cases l with
  | nil => rfl
  | cons x xs =>
    rw [List.dropWhile_cons, if_neg]
    simp [h x rfl]

theorem pyStrip_eq_self (l : List Char) (h : NoWsEnds l) : pyStrip l = l := by
  have h1 : stripLeft l = l := dropWhile_eq_self_of_head _ _ h.1
  have h2 : stripRight l = l := by
    simp only [stripRight]
    rw [dropWhile_eq_self_of_head]
    · exact List.reverse_reverse l
    · intro c hc
      rw [List.head?_reverse] at hc
      exact h.2 c hc
  simp [pyStrip, h1, h2]

theorem noWsEnds_map_normChar (l : List Char) (h : NoWsEnds l) :
    NoWsEnds (l.map normChar) := by
  constructor
  · intro c hc
    rw [List.head?_map] at hc
    cases hh : l.head? with
    | none => simp [hh] at hc
    | some d =>
      rw [hh] at hc
      simp only [Option.map_some', Option.some.injEq] at hc
      subst hc
      exact normChar_not_ws d (h.1 d hh)
  · intro c hc
    rw [List.getLast?_map] at hc
    cases hh : l.getLast? with
    | none => simp [hh] at hc
    | some d =>
      rw [hh] at hc
      simp only [Option.map_some', Option.some.injEq] at hc
      subst hc
      exact normChar_not_ws d (h.2 d hh)

theorem normList_idem (l : List Char) :
    (pyStrip ((pyStrip l).map normChar)).map normChar = (pyStrip l).map normChar := by
  rw [pyStrip_eq_self _ (noWsEnds_map_normChar _ (noWsEnds_pyStrip l))]
  rw [List.map_map]
  apply List.map_congr_left
  intro a _
  simp only [Function.comp_apply]
  exact normChar_idem a

theorem normalize_key_idem (s : String) :
    normalize_key (normalize_key s) = normalize_key s := by
  apply String.ext
  rw [normalize_key_data, normalize_key_data]
  exact normList_idem s.data

theorem dictGet_dictInsert_self {α : Type} (d : List (String × α)) (k : String) (v : α) :
    dictGet (dictInsert d k v) k = some v := by
  induction d with
  | nil => simp [dictInsert, dictGet]
  | cons a t ih =>
    obtain ⟨k', v'⟩ := a
    simp only [dictInsert]
    by_cases h : k' = k
    · simp [h, dictGet]
    · simp [h, dictGet, ih]

theorem dictGet_dictInsert_ne {α : Type} (d : List (String × α)) (k k' : String) (v : α)
    (h : k ≠ k') : dictGet (dictInsert d k v) k' = dictGet d k' := by
  induction d with
  | nil => simp [dictInsert, dictGet, h]
  | cons a t ih =>
    obtain ⟨k'', v''⟩ := a
    simp only [dictInsert]
    by_cases h2 : k'' = k
    · subst h2
      simp [dictGet, h]
    · simp only [h2, if_false, dictGet]
      by_cases h3 : k'' = k'
      · simp [h3]
      · simp [h3, ih]

theorem dictGet_some_of_mem_keys {α : Type} (d : List (String × α)) (k : String)
    (h : k ∈ dictKeys d) : ∃ v, dictGet d k = some v := by
  induction d with
  | nil => simp [dictKeys] at h
  | cons a t ih =>
    obtain ⟨k', v'⟩ := a
    by_cases h2 : k' = k
    · exact ⟨v', by simp [dictGet, h2]⟩
    · have : k ∈ dictKeys t := by
        simp only [dictKeys, List.map_cons, List.mem_cons] at h
        rcases h with h | h
        · exact absurd h.symm h2
        · simpa [dictKeys] using h
      obtain ⟨v, hv⟩ := ih this
      exact ⟨v, by simp [dictGet, h2, hv]⟩

theorem mem_dictKeys_dictInsert {α : Type} (d : List (String × α)) (k k' : String) (v : α)
    (h : k' ∈ dictKeys (dictInsert d k v)) : k' = k ∨ k' ∈ dictKeys d := by
  induction d with
  | nil => simpa [dictInsert, dictKeys] using h
  | cons a t ih =>
    obtain ⟨k'', v''⟩ := a
    simp only [dictInsert] at h
    by_cases h2 : k'' = k
    · rw [if_pos h2] at h
      simp only [dictKeys, List.map_cons, List.mem_cons] at h ⊢
      tauto
    · rw [if_neg h2] at h
      simp only [dictKeys, List.map_cons, List.mem_cons] at h ⊢
      rcases h with h | h
      · tauto
      · rcases ih h with h3 | h3 <;> tauto

theorem mem_insertSorted (a x : String) (l : List String) :
    a ∈ insertSorted x l ↔ a = x ∨ a ∈ l := by
  induction l with
  | nil => simp [insertSorted]
  | cons y ys ih =>
    simp only [insertSorted]
    split
    · simp
    · simp only [List.mem_cons, ih]
      tauto

theorem mem_sortStrings (a : String) (l : List String) :
    a ∈ sortStrings l ↔ a ∈ l := by
  induction l with
  | nil => simp [sortStrings]
  | cons x xs ih =>
    simp only [sortStrings, List.foldr_cons] at ih ⊢
    rw [mem_insertSorted, ih, List.mem_cons]

theorem pyLowerS_ne_empty (s : String) (h : s ≠ "") : pyLowerS s ≠ "" := by
  intro hcon
  apply h
  have hdata : (pyLowerS s).data = [] := by rw [hcon]
  simp only [pyLowerS] at hdata
  rw [List.map_eq_nil_iff] at hdata
  exact String.ext hdata

/-- Every key stored by `index_by_section` is non-empty (it is the
lowercasing of a non-empty stripped name). -/
theorem index_keys_ne_empty (records : List RawRecord) (k : String)
    (h : k ∈ dictKeys (index_by_section records)) : k ≠ "" := by
  suffices haux : ∀ (rs : List RawRecord) (acc : List (String × RawRecord)),
      (∀ k' ∈ dictKeys acc, k' ≠ "") →
      ∀ k' ∈ dictKeys (rs.foldl
        (fun out entry =>
          let name := pyStripS entry.«section»
          if name = "" then out else dictInsert out (pyLowerS name) entry) acc), k' ≠ "" by
    exact haux records [] (by simp [dictKeys]) k h
  intro rs
  induction rs with
  | nil => intro acc hacc k' hk'; exact hacc k' hk'
  | cons r t ih =>
    intro acc hacc k' hk'
    simp only [List.foldl_cons] at hk'
    by_cases hname : pyStripS r.«section» = ""
    · rw [if_pos hname] at hk'
      exact ih acc hacc k' hk'
    · rw [if_neg hname] at hk'
      refine ih _ ?_ k' hk'
      intro k'' hk''
      rcases mem_dictKeys_dictInsert _ _ _ _ hk'' with h2 | h2
      · subst h2
        exact pyLowerS_ne_empty _ hname
      · exact hacc k'' h2

/-- A successful resolution returns a member of the candidate list that is a
fixed point of `normalize_key`. -/
theorem choose_some_spec (client : Option LLMClient) (q : String)
    (candidate_keys : List String) (k : String)
    (h : choose_section_with_llm client q candidate_keys = some k) :
    k ∈ candidate_keys ∧ normalize_key k = k := by
  unfold choose_section_with_llm at h
  cases client with
  | none => simp at h
  | some call =>
    dsimp only at h
    split at h
    · simp at h
    · split at h
      · simp only [Option.some.injEq] at h
        subst h
        refine ⟨by assumption, normalize_key_idem _⟩
      · simp at h

theorem format_payload_found (sectionsByName : List (String × RawRecord))
    (sectionKeys : List String) (s : String) (r : RawRecord)
    (hfix : normalize_key s = s) (hget : dictGet sectionsByName s = some r) :
    format_payload sectionsByName sectionKeys s =
      [("ok", Json.bool true),
       ("section", Json.str r.«section»),
       ("period", r.period.getD Json.null),
       ("metrics", Json.obj (r.metrics.getD []))] := by
  unfold format_payload
  dsimp only
  rw [hfix, hget]

theorem format_payload_missing (sectionsByName : List (String × RawRecord))
    (sectionKeys : List String) (s : String)
    (hget : dictGet sectionsByName (normalize_key s) = none) :
    format_payload sectionsByName sectionKeys s =
      [("ok", Json.bool false),
       ("error", Json.str ("Section '" ++ s ++ "' not found.")),
       ("available_sections", Json.arr (sectionKeys.map Json.str))] := by
  unfold format_payload
  dsimp only
  rw [hget]

theorem payloadOk_found (sectionsByName : List (String × RawRecord))
    (sectionKeys : List String) (s : String) (r : RawRecord)
    (hfix : normalize_key s = s) (hget : dictGet sectionsByName s = some r) :
    payloadOk (format_payload sectionsByName sectionKeys s) = true := by
  rw [format_payload_found _ _ _ _ hfix hget]
  rfl

/-- C3, counterexample: `index_by_section` does not store a record under
`normalize_key` of its section name.  The record with section
`"Overview Core"` is absent at `normalize_key "Overview Core" =
"overview_core"`; it sits under `"overview core"` (lowercased only, the
space kept). -/
theorem c3_counterexample :
    normalize_key "Overview Core" = "overview_core" ∧
    dictGet (index_by_section [sampleRecord]) "overview_core" = none ∧
    dictGet (index_by_section [sampleRecord]) "overview core" = some sampleRecord :=
  ⟨rfl, rfl, rfl⟩

/-- C3 (amended): `index_by_section` stores each record with a non-blank
section name under the *trimmed and lowercased* section name (hyphens and
interior spaces are NOT replaced), skips records whose section name is
empty or blank, and later duplicates overwrite earlier ones: the lookup of
any key returns exactly the last record whose trimmed, lowercased section
name equals that key. -/
theorem c3_index_by_section_amended (records : List RawRecord) (k : String) :
    dictGet (index_by_section records) k =
      (records.filter (fun r =>
        !(pyStripS r.«section» == "") && (pyLowerS (pyStripS r.«section») == k))).getLast? := by
  induction records using List.reverseRecOn with
  | nil => rfl
  | append_singleton rs r ih =>
    have hstep : index_by_section (rs ++ [r]) =
        (if pyStripS r.«section» = "" then index_by_section rs
         else dictInsert (index_by_section rs) (pyLowerS (pyStripS r.«section»)) r) := by
      simp only [index_by_section, List.foldl_append, List.foldl_cons, List.foldl_nil]
    rw [hstep, List.filter_append]
    by_cases hname : pyStripS r.«section» = ""
    · have hf : List.filter (fun r =>
          !(pyStripS r.«section» == "") && (pyLowerS (pyStripS r.«section») == k)) [r] = [] := by
        simp [hname]
      rw [hf, List.append_nil, if_pos hname]
      exact ih
    · rw [if_neg hname]
      by_cases hk : pyLowerS (pyStripS r.«section») = k
      · rw [hk, dictGet_dictInsert_self]
        have hf : List.filter (fun r =>
            !(pyStripS r.«section» == "") && (pyLowerS (pyStripS r.«section») == k)) [r] = [r] := by
          simp [hname, hk]
        rw [hf, List.getLast?_concat]
      · rw [dictGet_dictInsert_ne _ _ _ _ hk]
        have hf : List.filter (fun r =>
            !(pyStripS r.«section» == "") && (pyLowerS (pyStripS r.«section») == k)) [r] = [] := by
          simp [hname, hk]
        rw [hf, List.append_nil]
        exact ih

/-- C4: `normalize_key` is a pure total function, it is idempotent on every
string, and it is case/separator-insensitive on the spec's examples:
`normalize_key "Overview Core" = normalize_key "overview-core" =
normalize_key "overview_core"`. -/
theorem c4_normalize_pure_idempotent_insensitive :
    (∀ x : String, normalize_key (normalize_key x) = normalize_key x) ∧
    normalize_key "Overview Core" = normalize_key "overview-core" ∧
    normalize_key "overview-core" = normalize_key "overview_core" :=
  ⟨normalize_key_idem, rfl, rfl⟩

/-- C7, counterexample: a parsed content that IS a list but NOT a list of
objects (here `[1]`) is returned successfully by `load_sections`; the
claimed format error is raised only when the top level is not a list. -/
theorem c7_counterexample :
    ([Json.num 1].all isJsonObj = false) ∧
    load_sections "data/ai_insights_sections.json" (some (Json.arr [Json.num 1])) =
      Except.ok [Json.num 1] :=
  ⟨rfl, rfl⟩

/-- C7 (amended): `load_sections` fails with a not-found error when the
source path is absent, fails with a format error when the parsed content is
not a sequence (the elements are not checked), and otherwise returns the
parsed sequence unchanged. -/
theorem c7_load_sections_amended (path : String) (contents : Option Json) :
    (contents = none →
      load_sections path contents =
        Except.error (LoadError.notFound ("DATA_PATH not found: " ++ path))) ∧
    (∀ v, contents = some v → isJsonArr v = false →
      load_sections path contents =
        Except.error (LoadError.badFormat "Top-level JSON must be a list of section objects.")) ∧
    (∀ xs, contents = some (Json.arr xs) → load_sections path contents = Except.ok xs) := by
  refine ⟨?_, ?_, ?_⟩
  · rintro rfl
    rfl
  · rintro v rfl hv
    cases v <;> first | rfl | simp [isJsonArr] at hv
  · rintro xs rfl
    rfl

theorem c7_witness :
    load_sections "p" none = Except.error (LoadError.notFound "DATA_PATH not found: p") ∧
    load_sections "p" (some (Json.num 3)) =
      Except.error (LoadError.badFormat "Top-level JSON must be a list of section objects.") ∧
    load_sections "p" (some (Json.arr [])) = Except.ok [] :=
  ⟨(c7_load_sections_amended "p" none).1 rfl,
   (c7_load_sections_amended "p" (some (Json.num 3))).2.1 (Json.num 3) rfl rfl,
   (c7_load_sections_amended "p" (some (Json.arr []))).2.2 [] rfl⟩

/-- C5: the free-text resolver returns `none` or a member of the supplied
candidate list; with no configured client it returns `none` immediately;
and a provider call that raises is caught and yields `none`. -/
theorem c5_resolver_safety (client : Option LLMClient) (query : String) (keys : List String) :
    (choose_section_with_llm client query keys = none ∨
      ∃ k, choose_section_with_llm client query keys = some k ∧ k ∈ keys) ∧
    choose_section_with_llm none query keys = none ∧
    (∀ call : LLMClient, (∀ sys usr, call sys usr = ProviderResponse.raises) →
      choose_section_with_llm (some call) query keys = none) := by
  refine ⟨?_, rfl, ?_⟩
  · cases h : choose_section_with_llm client query keys with
    | none => exact Or.inl rfl
    | some k => exact Or.inr ⟨k, rfl, (choose_some_spec _ _ _ _ h).1⟩
  · intro call hcall
    unfold choose_section_with_llm
    dsimp only
    rw [hcall]

theorem c5_witness :
    choose_section_with_llm none "latest roi" ["roi_quarter"] = none ∧
    choose_section_with_llm (some (fun _ _ => ProviderResponse.raises)) "latest roi"
      ["roi_quarter"] = none :=
  ⟨(c5_resolver_safety none "latest roi" ["roi_quarter"]).2.1,
   (c5_resolver_safety (some (fun _ _ => ProviderResponse.raises)) "latest roi"
      ["roi_quarter"]).2.2 _ (fun _ _ => rfl)⟩

/-- C1, counterexample: the key `"overview core"` (from the record with
section name `"Overview Core"`) is present in the section index, yet
`format_payload` on that very key returns `ok: false`, because the lookup
normalizes the input to `"overview_core"` while the index stored the key
with its space kept. -/
theorem c1_counterexample :
    "overview core" ∈ dictKeys (index_by_section [sampleRecord]) ∧
    payloadOk (format_payload (index_by_section [sampleRecord])
      (sectionKeysOf (index_by_section [sampleRecord])) "overview core") = false :=
  ⟨by decide, rfl⟩

/-- C1 (amended): every key of the section index that is a fixed point of
`normalize_key` (equivalently, that contains no space and no hyphen) is
reachable: `format_payload` on it returns `ok: true`. -/
theorem c1_index_keys_reachable_amended (records : List RawRecord) (k : String)
    (hk : k ∈ dictKeys (index_by_section records))
    (hfix : normalize_key k = k) :
    payloadOk (format_payload (index_by_section records)
      (sectionKeysOf (index_by_section records)) k) = true := by
  obtain ⟨r, hr⟩ := dictGet_some_of_mem_keys _ _ hk
  exact payloadOk_found _ _ _ _ hfix hr

theorem c1_witness :
    ("alpha" ∈ dictKeys (index_by_section [RawRecord.mk "alpha" none none])) ∧
    normalize_key "alpha" = "alpha" ∧
    payloadOk (format_payload (index_by_section [RawRecord.mk "alpha" none none])
      (sectionKeysOf (index_by_section [RawRecord.mk "alpha" none none])) "alpha") = true :=
  ⟨by decide, by decide,
   c1_index_keys_reachable_amended [RawRecord.mk "alpha" none none] "alpha"
     (by decide) (by decide)⟩

/-- C2, counterexample: with the one-record data source
`{section:"Overview Core", period:"Q1", metrics:{"x":1}}`, the request
`GET /metrics?section=overview_core` does NOT return status 200: it returns
404 (the index key is `"overview core"`, which the normalized query
`"overview_core"` never matches). -/
theorem c2_counterexample :
    (get_metrics_query sampleIndex sampleKeys none (some "overview_core") none).1 = 404 ∧
    (get_metrics_query sampleIndex sampleKeys none (some "overview_core") none).1 ≠ 200 :=
  ⟨rfl, by decide⟩

/-- C2 (amended): with the one-record data source
`{section:"Overview Core", period:"Q1", metrics:{"x":1}}`, BOTH
`GET /metrics?section=overview_core` and `GET /metrics?section=bogus`
return 404, each with `ok:false`, the error string embedding the query as
given, and `available_sections:["overview core"]` (the stored,
space-keeping key). -/
theorem c2_scenario_amended :
    get_metrics_query sampleIndex sampleKeys none (some "overview_core") none =
      (404, Json.obj
        [("ok", Json.bool false),
         ("error", Json.str "Section 'overview_core' not found."),
         ("available_sections", Json.arr [Json.str "overview core"])]) ∧
    get_metrics_query sampleIndex sampleKeys none (some "bogus") none =
      (404, Json.obj
        [("ok", Json.bool false),
         ("error", Json.str "Section 'bogus' not found."),
         ("available_sections", Json.arr [Json.str "overview core"])]) :=
  ⟨rfl, rfl⟩

/-- C6: `format_payload` is total; when the normalized input is present in
the startup index it returns the `ok:true` payload built from the stored
record (display name, period, metrics); otherwise it returns `ok:false`
with an error string embedding the caller's original, unnormalized input
and `available_sections` equal to the full sorted list of index keys. -/
theorem c6_format_payload_total (records : List RawRecord) (s : String) :
    (∀ r, dictGet (index_by_section records) (normalize_key s) = some r →
      format_payload (index_by_section records)
          (sectionKeysOf (index_by_section records)) s =
        [("ok", Json.bool true),
         ("section", Json.str r.«section»),
         ("period", r.period.getD Json.null),
         ("metrics", Json.obj (r.metrics.getD []))]) ∧
    (dictGet (index_by_section records) (normalize_key s) = none →
      format_payload (index_by_section records)
          (sectionKeysOf (index_by_section records)) s =
        [("ok", Json.bool false),
         ("error", Json.str ("Section '" ++ s ++ "' not found.")),
         ("available_sections",
          Json.arr ((sortStrings (dictKeys (index_by_section records))).map Json.str))]) := by
  constructor
  · intro r hr
    unfold format_payload
    dsimp only
    rw [hr]
  · intro hr
    rw [format_payload_missing _ _ _ hr]
    rfl

theorem c6_witness :
    format_payload (index_by_section [RawRecord.mk "alpha" none none])
        (sectionKeysOf (index_by_section [RawRecord.mk "alpha" none none])) "alpha" =
      [("ok", Json.bool true),
       ("section", Json.str "alpha"),
       ("period", Json.null),
       ("metrics", Json.obj [])] ∧
    format_payload (index_by_section [RawRecord.mk "alpha" none none])
        (sectionKeysOf (index_by_section [RawRecord.mk "alpha" none none])) "bogus" =
      [("ok", Json.bool false),
       ("error", Json.str "Section 'bogus' not found."),
       ("available_sections", Json.arr [Json.str "alpha"])] :=
  ⟨(c6_format_payload_total [RawRecord.mk "alpha" none none] "alpha").1
     (RawRecord.mk "alpha" none none) rfl,
   (c6_format_payload_total [RawRecord.mk "alpha" none none] "bogus").2 rfl⟩

/-- C10: a POST `/ask` body that parses to a truthy non-object JSON value
makes the handler raise an uncaught `AttributeError` (`.get` on a
non-dict) instead of returning the structured 400; a falsy JSON body is
replaced by `{}` and reaches the missing-`q` 400 branch; and any object
body is handled without an exception. -/
theorem c10_ask_nonobject_body_crashes (cfg : Config)
    (sectionsByName : List (String × RawRecord)) (sectionKeys : List String)
    (client : Option LLMClient) (v : Json) :
    (jsonTruthy v = true → isJsonObj v = false →
      ask_llm_router cfg sectionsByName sectionKeys client (some v) =
        Except.error PyError.attributeError) ∧
    (jsonTruthy v = false →
      ask_llm_router cfg sectionsByName sectionKeys client (some v) =
        Except.ok (400, Json.obj
          [("ok", Json.bool false),
           ("error", Json.str "Missing 'q' in JSON body.")])) ∧
    (∀ fields, v = Json.obj fields →
      ∃ st r, ask_llm_router cfg sectionsByName sectionKeys client (some v) =
        Except.ok (st, r)) := by
  refine ⟨?_, ?_, ?_⟩
  · intro ht hobj
    unfold ask_llm_router
    dsimp only
    rw [if_pos ht]
    cases v <;> first | rfl | simp [isJsonObj] at hobj
  · intro hf
    unfold ask_llm_router
    dsimp only
    rw [if_neg (by simp [hf])]
    rfl
  · rintro fields rfl
    unfold ask_llm_router
    dsimp only
    cases fields with
    | nil =>
      rw [if_neg (by simp [jsonTruthy])]
      exact ⟨400, _, rfl⟩
    | cons f fs =>
      rw [if_pos (by simp [jsonTruthy])]
      dsimp only
      split
      · exact ⟨400, _, rfl⟩
      · split
        · exact ⟨200, _, rfl⟩
        · exact ⟨400, _, rfl⟩

theorem c10_witness :
    (jsonTruthy (Json.arr [Json.num 1]) = true ∧
      isJsonObj (Json.arr [Json.num 1]) = false ∧
      ask_llm_router (Config.mk "overview_core" "hi") [] [] none
        (some (Json.arr [Json.num 1])) = Except.error PyError.attributeError) ∧
    (jsonTruthy Json.null = false ∧
      ask_llm_router (Config.mk "overview_core" "hi") [] [] none (some Json.null) =
        Except.ok (400, Json.obj
          [("ok", Json.bool false),
           ("error", Json.str "Missing 'q' in JSON body.")])) :=
  ⟨⟨rfl, rfl,
    (c10_ask_nonobject_body_crashes (Config.mk "overview_core" "hi") [] [] none
      (Json.arr [Json.num 1])).1 rfl rfl⟩,
   ⟨rfl,
    (c10_ask_nonobject_body_crashes (Config.mk "overview_core" "hi") [] [] none
      Json.null).2.1 rfl⟩⟩

theorem hasKey_dictInsert (d : List (String × Json)) (k k' : String) (v : Json) :
    hasKey (dictInsert d k v) k' = (if k = k' then true else hasKey d k') := by
  by_cases h : k = k'
  · subst h
    simp [hasKey, dictGet_dictInsert_self]
  · simp [h, hasKey, dictGet_dictInsert_ne _ _ _ _ h]

theorem hasKey_dictMerge (b a : List (String × Json)) (k : String) :
    hasKey (dictMerge a b) k = (hasKey a k || hasKey b k) := by
  induction b generalizing a with
  | nil => simp [dictMerge, hasKey, dictGet]
  | cons kv t ih =>
    obtain ⟨k', v'⟩ := kv
    simp only [dictMerge, List.foldl_cons] at *
    rw [ih (dictInsert a k' v')]
    rw [hasKey_dictInsert]
    by_cases h : k' = k
    · simp [h, hasKey, dictGet]
    · simp [h, hasKey, dictGet]

theorem hasKey_format_payload_message (sectionsByName : List (String × RawRecord))
    (sectionKeys : List String) (s : String) :
    hasKey (format_payload sectionsByName sectionKeys s) "message" = false := by
  unfold format_payload
  dsimp only
  cases dictGet sectionsByName (normalize_key s) <;> rfl

/-- The `/ask` handler on an object body with non-blank `q` and a
successful, non-empty resolution: a 200 response merging the optional
greeting with the formatted payload. -/
theorem ask_success_shape (cfg : Config) (sectionsByName : List (String × RawRecord))
    (sectionKeys : List String) (client : Option LLMClient)
    (fields : List (String × Json)) (k : String)
    (hq : pyStripS (pyStr ((dictGet fields "q").getD (Json.str ""))) ≠ "")
    (hres : choose_section_with_llm client
      (pyStripS (pyStr ((dictGet fields "q").getD (Json.str "")))) sectionKeys = some k)
    (hk : k ≠ "") :
    ask_llm_router cfg sectionsByName sectionKeys client (some (Json.obj fields)) =
      Except.ok (200, Json.obj (dictMerge
        (match (if k = "overview_core" then some cfg.DEFAULT_GREETING else none) with
         | some m => if m = "" then [] else [("message", Json.str m)]
         | none => [])
        (format_payload sectionsByName sectionKeys k))) := by
  unfold ask_llm_router
  dsimp only
  have hdata : (if jsonTruthy (Json.obj fields) = true then Json.obj fields else Json.obj []) =
      Json.obj fields := by
    cases fields <;> rfl
  rw [hdata]
  dsimp only
  rw [if_neg hq]
  rw [hres]
  rw [show truthyOptStr (some k) = true by simp [truthyOptStr, hk]]
  rw [if_pos rfl]
  rfl

/-- The `/metrics` handler with no `section` argument, a non-blank `q` and
a successful, non-empty resolution: status 200 with the formatted payload. -/
theorem metrics_success_shape (sectionsByName : List (String × RawRecord))
    (sectionKeys : List String) (client : Option LLMClient) (q k : String)
    (hq : q ≠ "")
    (hres : choose_section_with_llm client q sectionKeys = some k)
    (hk : k ≠ "") :
    get_metrics_query sectionsByName sectionKeys client none (some q) =
      (200, Json.obj (format_payload sectionsByName sectionKeys k)) := by
  unfold get_metrics_query
  rw [if_neg (show ¬(truthyOptStr (none : Option String) = true) by simp [truthyOptStr])]
  rw [show truthyOptStr (some q) = true by simp [truthyOptStr, hq]]
  rw [if_pos rfl]
  dsimp only
  simp only [Option.getD_some]
  rw [hres]
  rw [show truthyOptStr (some k) = true by simp [truthyOptStr, hk]]
  rw [if_pos rfl]
  simp only [Option.getD_some]

/-- Every `/metrics` response on the `q` path has status 400 or 200. -/
theorem metrics_q_status (sectionsByName : List (String × RawRecord))
    (sectionKeys : List String) (client : Option LLMClient) (qv : Option String) :
    (∃ r, get_metrics_query sectionsByName sectionKeys client none qv = (400, r)) ∨
    (∃ r, get_metrics_query sectionsByName sectionKeys client none qv = (200, r)) := by
  unfold get_metrics_query
  rw [if_neg (show ¬(truthyOptStr (none : Option String) = true) by simp [truthyOptStr])]
  split
  · dsimp only
    split
    · exact Or.inr ⟨_, rfl⟩
    · exact Or.inl ⟨_, rfl⟩
  · exact Or.inl ⟨_, rfl⟩

/-- Every `/ask` outcome is the uncaught exception, a 400, or a 200. -/
theorem ask_status (cfg : Config) (sectionsByName : List (String × RawRecord))
    (sectionKeys : List String) (client : Option LLMClient) (body : Option Json) :
    ask_llm_router cfg sectionsByName sectionKeys client body =
      Except.error PyError.attributeError ∨
    (∃ r, ask_llm_router cfg sectionsByName sectionKeys client body = Except.ok (400, r)) ∨
    (∃ r, ask_llm_router cfg sectionsByName sectionKeys client body = Except.ok (200, r)) := by
  unfold ask_llm_router
  dsimp only
  cases body with
  | none => exact Or.inr (Or.inl ⟨_, rfl⟩)
  | some v =>
    dsimp only
    by_cases ht : jsonTruthy v = true
    · rw [if_pos ht]
      cases v with
      | null => exact Or.inl rfl
      | bool b => exact Or.inl rfl
      | num n => exact Or.inl rfl
      | str s => exact Or.inl rfl
      | arr xs => exact Or.inl rfl
      | obj fields =>
        dsimp only
        by_cases hq : pyStripS (pyStr ((dictGet fields "q").getD (Json.str ""))) = ""
        · rw [if_pos hq]
          exact Or.inr (Or.inl ⟨_, rfl⟩)
        · rw [if_neg hq]
          by_cases hch : truthyOptStr (choose_section_with_llm client
              (pyStripS (pyStr ((dictGet fields "q").getD (Json.str "")))) sectionKeys) = true
          · rw [if_pos hch]
            exact Or.inr (Or.inr ⟨_, rfl⟩)
          · rw [if_neg hch]
            exact Or.inr (Or.inl ⟨_, rfl⟩)
    · rw [if_neg ht]
      exact Or.inr (Or.inl ⟨_, rfl⟩)

/-- C8, counterexample: with `DEFAULT_SECTION` configured to
`"roi_quarter"`, a POST `/ask` whose resolution succeeds with exactly that
configured default key returns a 200 response WITHOUT the greeting message
field: the handler compares the resolved key against the hard-coded string
`"overview_core"`, not against the configured default section key. -/
theorem c8_counterexample :
    choose_section_with_llm roiClient "which roi" roiKeys = some roiConfig.DEFAULT_SECTION ∧
    ask_llm_router roiConfig roiIndex roiKeys roiClient
        (some (Json.obj [("q", Json.str "which roi")])) =
      Except.ok (200, Json.obj
        [("ok", Json.bool true),
         ("section", Json.str "roi_quarter"),
         ("period", Json.null),
         ("metrics", Json.obj [])]) ∧
    hasKey
      [("ok", Json.bool true),
       ("section", Json.str "roi_quarter"),
       ("period", Json.null),
       ("metrics", Json.obj [])] "message" = false :=
  ⟨rfl, rfl, rfl⟩

/-- C8 (amended): for a POST `/ask` whose object body carries a non-blank
`q` and whose resolution succeeds with a non-empty key `k`, the 200
response includes the greeting `message` field if and only if `k` equals
the hard-coded key `"overview_core"` AND the configured greeting is
non-empty (the configured default section key is never consulted). -/
theorem c8_ask_greeting_amended (cfg : Config)
    (sectionsByName : List (String × RawRecord)) (sectionKeys : List String)
    (client : Option LLMClient) (fields : List (String × Json)) (k : String)
    (hq : pyStripS (pyStr ((dictGet fields "q").getD (Json.str ""))) ≠ "")
    (hres : choose_section_with_llm client
      (pyStripS (pyStr ((dictGet fields "q").getD (Json.str "")))) sectionKeys = some k)
    (hk : k ≠ "") :
    ∃ fs, ask_llm_router cfg sectionsByName sectionKeys client
        (some (Json.obj fields)) = Except.ok (200, Json.obj fs) ∧
      (hasKey fs "message" = true ↔ (k = "overview_core" ∧ cfg.DEFAULT_GREETING ≠ "")) := by
  refine ⟨_, ask_success_shape cfg sectionsByName sectionKeys client fields k hq hres hk, ?_⟩
  rw [hasKey_dictMerge, hasKey_format_payload_message, Bool.or_false]
  by_cases hko : k = "overview_core"
  · rw [if_pos hko]
    by_cases hg : cfg.DEFAULT_GREETING = ""
    · dsimp only
      rw [if_pos hg]
      simp [hasKey, dictGet, hko, hg]
    · dsimp only
      rw [if_neg hg]
      simp [hasKey, dictGet, hko, hg]
  · rw [if_neg hko]
    simp [hasKey, dictGet, hko]

theorem c8_witness :
    (pyStripS (pyStr ((dictGet [("q", Json.str "overview please")] "q").getD
      (Json.str ""))) ≠ "") ∧
    ∃ fs, ask_llm_router ovConfig ovIndex ovKeys ovClient
        (some (Json.obj [("q", Json.str "overview please")])) =
        Except.ok (200, Json.obj fs) ∧
      (hasKey fs "message" = true ↔
        ("overview_core" = "overview_core" ∧ ovConfig.DEFAULT_GREETING ≠ "")) :=
  ⟨by decide,
   c8_ask_greeting_amended ovConfig ovIndex ovKeys ovClient
     [("q", Json.str "overview please")] "overview_core" (by decide) (by rfl) (by decide)⟩

/-- C9: a successful resolution always round-trips.  If
`choose_section_with_llm` returns `some k` against the startup key list,
then `k` is a member of `SECTION_KEYS` and a fixed point of
`normalize_key`, so `format_payload k` returns `ok:true`; consequently
`GET /metrics?q=...` answers 200 with exactly that payload, neither the
`/metrics` `q` path nor POST `/ask` can ever answer 404, and a POST `/ask`
whose body resolves this way answers 200 with `ok:true`. -/
theorem c9_resolution_success_roundtrip (records : List RawRecord)
    (client : Option LLMClient) (q k : String)
    (hres : choose_section_with_llm client q
      (sectionKeysOf (index_by_section records)) = some k) :
    (k ∈ sectionKeysOf (index_by_section records) ∧ normalize_key k = k ∧
      payloadOk (format_payload (index_by_section records)
        (sectionKeysOf (index_by_section records)) k) = true) ∧
    (q ≠ "" →
      get_metrics_query (index_by_section records)
          (sectionKeysOf (index_by_section records)) client none (some q) =
        (200, Json.obj (format_payload (index_by_section records)
          (sectionKeysOf (index_by_section records)) k))) ∧
    (∀ qv, (get_metrics_query (index_by_section records)
      (sectionKeysOf (index_by_section records)) client none qv).1 ≠ 404) ∧
    (∀ cfg body st r,
      ask_llm_router cfg (index_by_section records)
          (sectionKeysOf (index_by_section records)) client body =
        Except.ok (st, r) → st ≠ 404) ∧
    (∀ cfg fields,
      pyStripS (pyStr ((dictGet fields "q").getD (Json.str ""))) = q → q ≠ "" →
      ∃ fs, ask_llm_router cfg (index_by_section records)
          (sectionKeysOf (index_by_section records)) client (some (Json.obj fields)) =
          Except.ok (200, Json.obj fs) ∧
        dictGet fs "ok" = some (Json.bool true)) := by
  obtain ⟨hmem, hfix⟩ := choose_some_spec _ _ _ _ hres
  have hmemk : k ∈ dictKeys (index_by_section records) :=
    (mem_sortStrings _ _).1 hmem
  have hk0 : k ≠ "" := index_keys_ne_empty records k hmemk
  obtain ⟨r, hr⟩ := dictGet_some_of_mem_keys _ _ hmemk
  refine ⟨⟨hmem, hfix, payloadOk_found _ _ _ _ hfix hr⟩, ?_, ?_, ?_, ?_⟩
  · intro hq
    exact metrics_success_shape _ _ _ _ _ hq hres hk0
  · intro qv
    rcases metrics_q_status (index_by_section records)
        (sectionKeysOf (index_by_section records)) client qv with ⟨r1, h1⟩ | ⟨r1, h1⟩ <;>
      simp [h1]
  · intro cfg body st rr h
    rcases ask_status cfg (index_by_section records)
        (sectionKeysOf (index_by_section records)) client body with
      h1 | ⟨r1, h1⟩ | ⟨r1, h1⟩ <;> rw [h1] at h
    · simp at h
    · simp only [Except.ok.injEq, Prod.mk.injEq] at h
      omega
    · simp only [Except.ok.injEq, Prod.mk.injEq] at h
      omega
  · intro cfg fields hfq hq
    have hres' : choose_section_with_llm client
        (pyStripS (pyStr ((dictGet fields "q").getD (Json.str ""))))
        (sectionKeysOf (index_by_section records)) = some k := by
      rw [hfq]
      exact hres
    have hshape := ask_success_shape cfg (index_by_section records)
      (sectionKeysOf (index_by_section records)) client fields k
      (by rw [hfq]; exact hq) hres' hk0
    refine ⟨_, hshape, ?_⟩
    rw [format_payload_found _ _ _ _ hfix hr]
    by_cases hko : k = "overview_core"
    · rw [if_pos hko]
      by_cases hg : cfg.DEFAULT_GREETING = ""
      · dsimp only
        rw [if_pos hg]
        rfl
      · dsimp only
        rw [if_neg hg]
        rfl
    · rw [if_neg hko]
      rfl

theorem c9_witness :
    ("overview_core" ∈ sectionKeysOf (index_by_section [ovRecord]) ∧
      normalize_key "overview_core" = "overview_core" ∧
      payloadOk (format_payload (index_by_section [ovRecord])
        (sectionKeysOf (index_by_section [ovRecord])) "overview_core") = true) ∧
    get_metrics_query (index_by_section [ovRecord])
        (sectionKeysOf (index_by_section [ovRecord])) ovClient none (some "overview please") =
      (200, Json.obj (format_payload (index_by_section [ovRecord])
        (sectionKeysOf (index_by_section [ovRecord])) "overview_core")) :=
  ⟨(c9_resolution_success_roundtrip [ovRecord] ovClient "overview please"
      "overview_core" (by rfl)).1,
   (c9_resolution_success_roundtrip [ovRecord] ovClient "overview please"
      "overview_core" (by rfl)).2.1 (by decide)⟩
